import Mathlib

/-!
# The xiaoi dispatcher (`xiaoi.go`)

A shallow embedding of the Go package `xiaoi`: the request signer (SHA-1 digests rendered
with `%x`), the bounded queue with its admission check (`Post`), the worker body
(`doRequest`, `loop`) and the shutdown protocol (`NewXiaoi`, `Close`).

Conventions.
* Go strings are Lean strings; a hash is fed the UTF-8 bytes of a string.
* A buffered channel is the list of buffered values together with its capacity.  A send on a
  full channel parks the sender: the model returns `none` there.
* The `int64` identity counter wraps modulo `2 ^ 64` (`atomic.AddInt64`).  Queue lengths are
  bounded by the channel capacity, which `make` can only allocate far below `2 ^ 63`, so
  `len(queue) + THREAD_NUMBER` is computed in `Int`.
* The HTTP exchange and the random source are inputs of `doRequest`; the callback (taken
  to be a function, not nil) is observed through the list of its invocations.  The output
  of `fmt.Println` is not modelled.
-/

namespace XiaoiGo

/-! ## crypto/sha1 and `%x` -/

/-- Left rotation of a 32-bit word. -/
def rotl32 (x n : Nat) : Nat :=
  ((x <<< n) ||| (x >>> (32 - n))) % 2 ^ 32

/-- Big-endian bytes of the low `k` bytes of `v`. -/
def beBytes : Nat → Nat → List Nat
  | 0, _ => []
  | k + 1, v => (v >>> (8 * k)) % 256 :: beBytes k v

/-- The padded message: 0x80, zeros up to 56 mod 64, then the bit length on 8 bytes. -/
def sha1Pad (msg : List Nat) : List Nat :=
  let l := msg.length
  msg ++ 0x80 :: List.replicate ((119 - l % 64) % 64) 0 ++ beBytes 8 ((8 * l) % 2 ^ 64)

/-- Big-endian 32-bit word read from four bytes. -/
def beWord (b0 b1 b2 b3 : Nat) : Nat :=
  ((b0 % 256) <<< 24) ||| ((b1 % 256) <<< 16) ||| ((b2 % 256) <<< 8) ||| (b3 % 256)

/-- The first `k` words of a block, read four bytes at a time. -/
def blockWords : Nat → List Nat → List Nat
  | 0, _ => []
  | k + 1, b0 :: b1 :: b2 :: b3 :: rest => beWord b0 b1 b2 b3 :: blockWords k rest
  | _ + 1, _ => []

/-- Message schedule: `k` more words are pushed on `w`, which holds the schedule so far in
reverse order (latest word first). -/
def schedule : Nat → List Nat → List Nat
  | 0, w => w
  | k + 1, w =>
    let x := w.getD 2 0 ^^^ w.getD 7 0 ^^^ w.getD 13 0 ^^^ w.getD 15 0
    schedule k (rotl32 x 1 :: w)

/-- The five chaining words of SHA-1. -/
structure Digest where
  h0 : Nat
  h1 : Nat
  h2 : Nat
  h3 : Nat
  h4 : Nat
deriving DecidableEq, Repr

def sha1Init : Digest :=
  ⟨0x67452301, 0xEFCDAB89, 0x98BADCFE, 0x10325476, 0xC3D2E1F0⟩

/-- Round function and round constant of round `i`. -/
def roundFK (i b c d : Nat) : Nat × Nat :=
  if i < 20 then ((b &&& c) ||| ((b ^^^ 0xFFFFFFFF) &&& d), 0x5A827999)
  else if i < 40 then (b ^^^ c ^^^ d, 0x6ED9EBA1)
  else if i < 60 then (((b ||| c) &&& d) ||| (b &&& c), 0x8F1BBCDC)
  else (b ^^^ c ^^^ d, 0xCA62C1D6)

/-- The rounds over the schedule words (in order), the first of them being round `i`. -/
def rounds : List Nat → Nat → Digest → Digest
  | [], _, s => s
  | w :: ws, i, ⟨a, b, c, d, e⟩ =>
    let fk := roundFK i b c d
    let t := (rotl32 a 5 + fk.1 + e + w + fk.2) % 2 ^ 32
    rounds ws (i + 1) ⟨t, a, rotl32 b 30, c, d⟩

def sha1Block (s : Digest) (block : List Nat) : Digest :=
  let ws := (schedule 64 (blockWords 16 block).reverse).reverse
  let r := rounds ws 0 s
  ⟨(s.h0 + r.h0) % 2 ^ 32, (s.h1 + r.h1) % 2 ^ 32, (s.h2 + r.h2) % 2 ^ 32,
   (s.h3 + r.h3) % 2 ^ 32, (s.h4 + r.h4) % 2 ^ 32⟩

/-- Folds `n` blocks of 64 bytes into the chaining value. -/
def sha1Blocks : Nat → Digest → List Nat → Digest
  | 0, s, _ => s
  | n + 1, s, bytes => sha1Blocks n (sha1Block s (bytes.take 64)) (bytes.drop 64)

/-- SHA-1 of a byte string: the 20 bytes that `h.Sum(nil)` returns once the bytes have been
written to `h := sha1.New()`. -/
def sha1 (msg : List Nat) : List Nat :=
  let p := sha1Pad msg
  let d := sha1Blocks (p.length / 64) sha1Init p
  beBytes 4 d.h0 ++ beBytes 4 d.h1 ++ beBytes 4 d.h2 ++ beBytes 4 d.h3 ++ beBytes 4 d.h4

/-- One lowercase hexadecimal digit. -/
def hexDigit (n : Nat) : Char :=
  ['0', '1', '2', '3', '4', '5', '6', '7', '8', '9', 'a', 'b', 'c', 'd', 'e', 'f'].getD n '0'

/-- The two digits `%x` prints for one byte. -/
def hexByte (b : Nat) : List Char :=
  [hexDigit (b / 16 % 16), hexDigit (b % 16)]

/-- The characters `%x` prints for a byte slice. -/
def hexChars : List Nat → List Char
  | [] => []
  | b :: bs => hexByte b ++ hexChars bs

/-- The verb `%x` on a byte slice: `fmt.Sprintf("%x", h.Sum(nil))`. -/
def hexOfBytes (bs : List Nat) : String :=
  ⟨hexChars bs⟩

/-- The verb `%0<width>x` on a non-negative integer: its hexadecimal digits, padded with
zeros on the left up to `width`; a longer number is printed in full. -/
def fmtHexPad (width v : Nat) : String :=
  let ds := Nat.toDigits 16 v
  ⟨List.replicate (width - ds.length) '0' ++ ds⟩

/-- The UTF-8 encoding of one character. -/
def utf8Bytes (c : Char) : List Nat :=
  let n := c.toNat
  if n < 0x80 then [n]
  else if n < 0x800 then [0xC0 + n / 64, 0x80 + n % 64]
  else if n < 0x10000 then [0xE0 + n / 4096, 0x80 + n / 64 % 64, 0x80 + n % 64]
  else [0xF0 + n / 262144, 0x80 + n / 4096 % 64, 0x80 + n / 64 % 64, 0x80 + n % 64]

/-- The bytes of a list of characters. -/
def bytesOfChars : List Char → List Nat
  | [] => []
  | c :: cs => utf8Bytes c ++ bytesOfChars cs

/-- The bytes of a string, as `io.WriteString` feeds them to the hash. -/
def bytesOf (s : String) : List Nat :=
  bytesOfChars s.data

/-- A character of a lowercase hexadecimal rendering. -/
def isLowerHex (c : Char) : Bool :=
  ('0' ≤ c && c ≤ '9') || ('a' ≤ c && c ≤ 'f')

/-! ## Constants and data model -/

def REALM : String := "xiaoi.com"
def METHOD : String := "POST"
def URI : String := "/ask.do"
def SCHEMA : String := "http://"
def HOST : String := "nlp." ++ REALM
def REQ_URL : String := SCHEMA ++ HOST ++ URI

def THREAD_NUMBER : Int := 8
def NONCE_SIZE : Nat := 40

/-- The package's error values. -/
inductive GoError where
  | ErrQueueFull
deriving DecidableEq, Repr

def SPLIT_BYTES : List Nat := bytesOf ":"

/-- Modelled from the spec: the identifier `http.StatusOk` that `doRequest` compares the
status code with is declared nowhere in the sources (net/http spells its constant
`StatusOK`); the spec's scenarios take HTTP 200 as the success status. -/
def StatusOk : Int := 200

structure XiaoiParameters where
  Param_key : String
  Param_secret : String
  Param_connections : Int
  Param_queue_size : Int
  Param_timeout : Int
deriving DecidableEq, Repr

structure XiaoiMsg where
  Id : Int
  Userid : String
  Question : String
  Answer : String
deriving DecidableEq, Repr

/-- A Go channel: the buffered values, oldest first, and the capacity. -/
structure Chan (α : Type) where
  buf : List α
  cap : Nat
deriving DecidableEq, Repr

/-- The builtin `make(chan T, size)`: panics on a negative size. -/
def makeChan {α : Type} (size : Int) : Option (Chan α) :=
  if size < 0 then none else some ⟨[], size.toNat⟩

/-- The builtin `len(ch)`. -/
def Chan.len {α : Type} (c : Chan α) : Nat :=
  c.buf.length

/-- The statement `ch <- v` with no receiver waiting: the value goes to the tail of the
buffer; `none` when the buffer is full (the sender parks). -/
def Chan.send {α : Type} (c : Chan α) (v : α) : Option (Chan α) :=
  if c.buf.length < c.cap then some { c with buf := c.buf ++ [v] } else none

/-- The expression `<-ch`: the oldest buffered value; `none` when the buffer is empty (the
receiver waits). -/
def Chan.recv {α : Type} (c : Chan α) : Option (α × Chan α) :=
  match c.buf with
  | [] => none
  | v :: rest => some (v, { c with buf := rest })

/-- The struct `Xiaoi`.  The callback field is not stored: its invocations are recorded by
`doRequest`.  `exitWg` is the counter of the wait group. -/
structure Xiaoi extends XiaoiParameters where
  queue : Chan XiaoiMsg
  id : Int
  ha1 : String
  ha2 : String
  exitSg : Chan Bool
  exitWg : Int
deriving DecidableEq, Repr

/-- The dispatcher together with its goroutines: `loops` workers run `loop`, `timers`
goroutines started by `Close` are asleep, `panicked` records a runtime panic (the process
is gone). -/
structure System where
  xiaoi : Xiaoi
  loops : Nat
  timers : Nat
  panicked : Bool
deriving DecidableEq, Repr

/-- Two's complement wrap-around of `int64` arithmetic. -/
def wrapInt64 (v : Int) : Int :=
  (v + 2 ^ 63) % 2 ^ 64 - 2 ^ 63

/-- The method `WaitGroup.Add(delta)`: the counter takes the new value, and the call panics
when that value is negative. -/
def wgAdd (counter delta : Int) : Int × Bool :=
  (counter + delta, decide (counter + delta < 0))

/-! ## The signer -/

/-- The digest `ha1` of `NewXiaoi`: key, ":", REALM, ":", secret written to a SHA-1 hash. -/
def deriveHA1 (key secret : String) : String :=
  hexOfBytes (sha1 (bytesOf key ++ SPLIT_BYTES ++ bytesOf REALM ++ SPLIT_BYTES ++ bytesOf secret))

/-- The digest `ha2` of `NewXiaoi`: METHOD, ":", URI. -/
def deriveHA2 : String :=
  hexOfBytes (sha1 (bytesOf METHOD ++ SPLIT_BYTES ++ bytesOf URI))

/-- The nonce of `doRequest`: `fmt.Sprintf("%016x%016x%08x", r1, r2, r3)` for the three
results of `rand.Int63()`. -/
def makeNonce (r1 r2 r3 : Nat) : String :=
  fmtHexPad 16 r1 ++ fmtHexPad 16 r2 ++ fmtHexPad 8 r3

/-- The signature of `doRequest`: ha1, ":", nonce, ":", ha2 written to a SHA-1 hash. -/
def signOf (ha1 nonce ha2 : String) : String :=
  hexOfBytes (sha1 (bytesOf ha1 ++ SPLIT_BYTES ++ bytesOf nonce ++ SPLIT_BYTES ++ bytesOf ha2))

/-! ## Construction -/

/-- The loop of `NewXiaoi` that starts the workers: each turn adds one to the wait group and
starts one goroutine. -/
def startWorkers : Nat → System → System
  | 0, s => s
  | n + 1, s =>
    let r := wgAdd s.xiaoi.exitWg 1
    startWorkers n
      { s with xiaoi := { s.xiaoi with exitWg := r.1 }, loops := s.loops + 1,
               panicked := s.panicked || r.2 }

/-- The constructor `NewXiaoi`; `none` when a `make(chan ...)` panics. -/
def NewXiaoi (parameters : XiaoiParameters) : Option System :=
  match (makeChan parameters.Param_queue_size : Option (Chan XiaoiMsg)),
        (makeChan parameters.Param_connections : Option (Chan Bool)) with
  | some queue, some exitSg =>
    let xiaoi : Xiaoi :=
      { toXiaoiParameters := parameters, queue := queue, id := 0,
        ha1 := deriveHA1 parameters.Param_key parameters.Param_secret,
        ha2 := deriveHA2, exitSg := exitSg, exitWg := 0 }
    some (startWorkers parameters.Param_connections.toNat
      { xiaoi := xiaoi, loops := 0, timers := 0, panicked := false })
  | _, _ => none

/-- The parameters of `TestXiaoi`. -/
def testParameters : XiaoiParameters :=
  { Param_key := "<Your key>", Param_secret := "<Your secret>", Param_connections := 5,
    Param_queue_size := 10000, Param_timeout := 1000000000 }

/-- The dispatcher `NewXiaoi` builds from `parameters`, with `buf` in its queue and `id` as
its identity counter. -/
def xiaoiWith (parameters : XiaoiParameters) (buf : List XiaoiMsg) (id : Int) : Xiaoi :=
  { toXiaoiParameters := parameters,
    queue := ⟨buf, parameters.Param_queue_size.toNat⟩, id := id,
    ha1 := deriveHA1 parameters.Param_key parameters.Param_secret, ha2 := deriveHA2,
    exitSg := ⟨[], parameters.Param_connections.toNat⟩,
    exitWg := parameters.Param_connections.toNat }

/-- A dispatcher of capacity 10 with three messages queued: the next `Post` is rejected. -/
def nearFull : Xiaoi :=
  xiaoiWith { testParameters with Param_queue_size := 10 }
    [⟨1, "Test1", "a", ""⟩, ⟨2, "Test2", "b", ""⟩, ⟨3, "Test3", "c", ""⟩] 3

/-- A message as `Post` builds it. -/
def testMsg : XiaoiMsg :=
  { Id := 1, Userid := "Test1", Question := "hello", Answer := "" }

/-! ## Admission and enqueue -/

/-- The method `Post`: the returned dispatcher, id and error; `none` when the send
`xiaoi.queue <- msg` finds the buffer full and the caller parks (the identity has been
taken by then). -/
def Post (xiaoi : Xiaoi) (userid question : String) : Option (Xiaoi × Int × Option GoError) :=
  if (xiaoi.queue.len : Int) + THREAD_NUMBER > xiaoi.Param_queue_size then
    some (xiaoi, 0, some GoError.ErrQueueFull)
  else
    let id := wrapInt64 (xiaoi.id + 1)
    let msg : XiaoiMsg := { Id := id, Userid := userid, Question := question, Answer := "" }
    match xiaoi.queue.send msg with
    | none => none
    | some queue => some ({ xiaoi with id := id, queue := queue }, id, none)

/-! ## The worker -/

/-- What reading the response body gives. -/
inductive BodyRead where
  | failed
  | ok (bytes : String)
deriving DecidableEq, Repr

/-- What `http.DefaultClient.Do(req)` gives: an error, or a response with its status code
and its body. -/
inductive Exchange where
  | transportError
  | response (StatusCode : Int) (body : BodyRead)
deriving DecidableEq, Repr

/-- The request handed to the HTTP client. -/
structure Request where
  method : String
  url : String
  header : List (String × String)
  body : String
deriving DecidableEq, Repr

/-- What one call of `doRequest` does: the nonce, signature and header it computes, the
request it sends, the message when the function returns, and the invocations of the
callback, each with the message as the callback finds it. -/
structure DoRequestTrace where
  nonce : String
  sign : String
  authHeader : String
  req : Request
  msg : XiaoiMsg
  callbacks : List XiaoiMsg
deriving DecidableEq, Repr

/-- The statements of `doRequest` after the `defer`, with their three early returns.
`r1 r2 r3` are the results of the three calls of `rand.Int63()`. -/
def doRequestBody (xiaoi : Xiaoi) (msg : XiaoiMsg) (r1 r2 r3 : Nat) (ex : Exchange) :
    DoRequestTrace :=
  let nonce := makeNonce r1 r2 r3
  let sign := signOf xiaoi.ha1 nonce xiaoi.ha2
  let authHeader :=
    "app_key=\"" ++ xiaoi.Param_key ++ "\",nonce=\"" ++ nonce ++ "\",signature=\"" ++ sign ++ "\""
  let body := "userId=" ++ msg.Userid ++ "&question=" ++ msg.Question ++ "&type=0&platform=custom"
  let req : Request :=
    { method := METHOD, url := REQ_URL,
      header := [("X-Auth", authHeader),
                 ("Content-Type", "application/x-www-form-urlencoded; charset=UTF-8")],
      body := body }
  let msg1 : XiaoiMsg :=
    match ex with
    | Exchange.transportError => msg
    | Exchange.response StatusCode respBody =>
      if StatusCode ≠ StatusOk then msg
      else
        match respBody with
        | BodyRead.failed => msg
        | BodyRead.ok answer => { msg with Answer := answer }
  { nonce := nonce, sign := sign, authHeader := authHeader, req := req, msg := msg1,
    callbacks := [] }

/-- The method `doRequest`: the body, then the deferred `xiaoi.callback(msg)`, which runs
when the function returns, whichever return is taken, and receives the pointer `msg`. -/
def doRequest (xiaoi : Xiaoi) (msg : XiaoiMsg) (r1 r2 r3 : Nat) (ex : Exchange) :
    DoRequestTrace :=
  let t := doRequestBody xiaoi msg r1 r2 r3 ex
  { t with callbacks := t.callbacks ++ [t.msg] }

/-- The queue case of the `select` in `loop`: the worker takes the oldest message and runs
`doRequest` on it; `none` when the queue is empty (the worker keeps waiting).  Gives the
dispatcher, the message received and what `doRequest` did. -/
def loopRecv (xiaoi : Xiaoi) (r1 r2 r3 : Nat) (ex : Exchange) :
    Option (Xiaoi × XiaoiMsg × DoRequestTrace) :=
  match xiaoi.queue.recv with
  | none => none
  | some (msg, queue) => some ({ xiaoi with queue := queue }, msg, doRequest xiaoi msg r1 r2 r3 ex)

/-! ## Sequential runs of the queue -/

/-- What happens to the queue: a caller calls `Post`, or the `select` of a worker takes
`msg := <-xiaoi.queue` and runs `doRequest(msg)`. -/
inductive Op where
  | post (userid question : String)
  | work (r1 r2 r3 : Nat) (ex : Exchange)
deriving DecidableEq, Repr

/-- The record of one call of `Post`. -/
structure PostCall where
  userid : String
  question : String
  id : Int
  err : Option GoError
deriving DecidableEq, Repr

/-- A dispatcher and what has been observed of it: the calls of `Post` with their results,
the messages the workers received, and the invocations of the callback. -/
structure Trace where
  xiaoi : Xiaoi
  posts : List PostCall
  received : List XiaoiMsg
  callbacks : List XiaoiMsg
deriving DecidableEq, Repr

def Trace.init (xiaoi : Xiaoi) : Trace :=
  { xiaoi := xiaoi, posts := [], received := [], callbacks := [] }

/-- One operation; `none` when `Post` parks its caller.  A worker that finds the queue
empty keeps waiting. -/
def Trace.step (t : Trace) : Op → Option Trace
  | Op.post userid question =>
    match Post t.xiaoi userid question with
    | none => none
    | some (xiaoi, id, err) =>
      some { t with xiaoi := xiaoi, posts := t.posts ++ [⟨userid, question, id, err⟩] }
  | Op.work r1 r2 r3 ex =>
    match loopRecv t.xiaoi r1 r2 r3 ex with
    | none => some t
    | some (xiaoi, msg, d) =>
      some { t with xiaoi := xiaoi, received := t.received ++ [msg],
                    callbacks := t.callbacks ++ d.callbacks }

/-- A sequence of operations, one after the other. -/
def Trace.run (t : Trace) : List Op → Option Trace
  | [] => some t
  | op :: ops =>
    match t.step op with
    | none => none
    | some t1 => t1.run ops

/-- The ids that the successful calls of `Post` returned, in call order. -/
def successIds : List PostCall → List Int
  | [] => []
  | c :: cs => if c.err = none then c.id :: successIds cs else successIds cs

/-- The messages that the successful calls of `Post` built, in call order. -/
def acceptedMsgs : List PostCall → List XiaoiMsg
  | [] => []
  | c :: cs =>
    if c.err = none then
      { Id := c.id, Userid := c.userid, Question := c.question, Answer := "" } :: acceptedMsgs cs
    else acceptedMsgs cs

/-- The ids 1, 2, ..., n. -/
def idsUpTo (n : Nat) : List Int :=
  (List.range n).map fun k => (k : Int) + 1

/-! ## Shutdown -/

/-- The signalling loop of `Close`: `n` sends of `true` on `exitSg`; it stops where a send
finds the buffer full (the caller parks there) and says whether all sends were made. -/
def sendExits : Nat → Chan Bool → Chan Bool × Bool
  | 0, c => (c, true)
  | n + 1, c =>
    match c.send true with
    | none => (c, false)
    | some c1 => sendExits n c1

/-- A run of `n` calls of `exitWg.Done()`, stopped by the first panic. -/
def doneTimes : Nat → Int → Int × Bool
  | 0, counter => (counter, false)
  | n + 1, counter =>
    let r := wgAdd counter (-1)
    if r.2 then r else doneTimes n r.1

/-- The method `Close` up to its `Wait`: the signalling loop, then the timer goroutine is
started; a caller parked in the signalling loop has not started it. -/
def Close (s : System) (_timeout : Int) : System :=
  let r := sendExits s.xiaoi.Param_connections.toNat s.xiaoi.exitSg
  { s with xiaoi := { s.xiaoi with exitSg := r.1 },
           timers := if r.2 then s.timers + 1 else s.timers }

/-- The `exitSg` case of the `select` in `loop`: the worker takes one signal, leaves the
loop and calls `exitWg.Done()`.  Without a signal the worker keeps waiting. -/
def loopExit (s : System) : System :=
  match s.xiaoi.exitSg.recv with
  | none => s
  | some (_, exitSg) =>
    let r := wgAdd s.xiaoi.exitWg (-1)
    { s with xiaoi := { s.xiaoi with exitSg := exitSg, exitWg := r.1 },
             loops := s.loops - 1, panicked := r.2 }

/-- The goroutine of `Close` once its sleep is over: `Param_connections` calls of
`exitWg.Done()`. -/
def timerFire (s : System) : System :=
  let r := doneTimes s.xiaoi.Param_connections.toNat s.xiaoi.exitWg
  { s with xiaoi := { s.xiaoi with exitWg := r.1 }, timers := s.timers - 1, panicked := r.2 }

/-- What happens during shutdown: `Close` is called, a worker takes the `exitSg` case of its
`select`, or the timer goroutine of a `Close` wakes up. -/
inductive LifeEvent where
  | close (timeout : Int)
  | workerExit
  | timerFire
deriving DecidableEq, Repr

/-- One shutdown event.  Nothing happens after a panic (the process is gone), and an event
that needs a worker or a timer does nothing when there is none. -/
def System.step (s : System) : LifeEvent → System
  | LifeEvent.close timeout => if s.panicked then s else Close s timeout
  | LifeEvent.workerExit => if s.panicked || s.loops == 0 then s else loopExit s
  | LifeEvent.timerFire => if s.panicked || s.timers == 0 then s else timerFire s

/-- A sequence of shutdown events. -/
def System.run (s : System) : List LifeEvent → System
  | [] => s
  | e :: es => (s.step e).run es

/-! ## Invariants of sequential runs -/

/-- What `Post` and the workers preserve of a dispatcher opened with the parameters `p`: the
parameters and both digests are those of `NewXiaoi`, the channel capacity is
`Param_queue_size`, the messages received followed by the messages queued are the messages
of the successful calls of `Post` in call order, and the occupancy is at most
`max 0 (Param_queue_size - 7)`. -/
def Trace.Inv (p : XiaoiParameters) (t : Trace) : Prop :=
  t.xiaoi.toXiaoiParameters = p ∧
  (t.xiaoi.queue.cap : Int) = p.Param_queue_size ∧
  t.xiaoi.ha1 = deriveHA1 p.Param_key p.Param_secret ∧
  t.xiaoi.ha2 = deriveHA2 ∧
  t.received ++ t.xiaoi.queue.buf = acceptedMsgs t.posts ∧
  (t.xiaoi.queue.len : Int) ≤ max 0 (p.Param_queue_size - 7)

/-- The identity counter counts the successful calls of `Post`, whose ids are 1, 2, ... -/
def Trace.IdInv (t : Trace) : Prop :=
  t.xiaoi.id = ((successIds t.posts).length : Int) ∧
  successIds t.posts = idsUpTo (successIds t.posts).length ∧
  (successIds t.posts).length ≤ t.posts.length

/-! ## The signature in the words of the API documentation -/

/-- The signature as the comment of `doRequest` describes it: the SHA-1 of `HA1:nonce:HA2`,
where HA1 is the SHA-1 of `app_key:realm:app_secret` with realm "xiaoi.com", and HA2 the
SHA-1 of `method:uri` with method "POST" and uri "/ask.do", all in lowercase hex. -/
def documentedSignature (key secret nonce : String) : String :=
  let HA1 := hexOfBytes (sha1 (bytesOf (key ++ ":xiaoi.com:" ++ secret)))
  let HA2 := hexOfBytes (sha1 (bytesOf "POST:/ask.do"))
  hexOfBytes (sha1 (bytesOf (HA1 ++ ":" ++ nonce ++ ":" ++ HA2)))

/-! # Theorems -/

/-! ## Test vectors of SHA-1 -/

set_option maxRecDepth 100000 in
theorem sha1_abc :
    hexOfBytes (sha1 (bytesOf "abc")) = "a9993e364706816aba3e25717850c26c9cd0d89d" := by
  decide

set_option maxRecDepth 100000 in
theorem sha1_two_blocks :
    hexOfBytes (sha1 (bytesOf "abcdbcdecdefdefgefghfghighijhijkijkljklmklmnlmnomnopnopq")) =
      "84983e441c3bd26ebaae4aa1f95129e5e54670f1" := by
  decide

set_option maxRecDepth 100000 in
theorem deriveHA2_value : deriveHA2 = "c02000e9b0bf03b118bb93407184fb8b2b4f9228" := by
  decide

/-! ## Construction: what `NewXiaoi` returns -/

theorem startWorkers_eq (n : Nat) (s : System) (h : 0 ≤ s.xiaoi.exitWg) :
    startWorkers n s =
      { s with xiaoi := { s.xiaoi with exitWg := s.xiaoi.exitWg + n }, loops := s.loops + n } := by
  induction n generalizing s with
  | zero => simp [startWorkers]
  | succ n ih =>
    have hneg : ¬ (s.xiaoi.exitWg + 1 < 0) := by omega
    rw [startWorkers, ih]
    · simp only [wgAdd, hneg, decide_False, Bool.or_false]
      have e1 : s.xiaoi.exitWg + 1 + (n : Int) = s.xiaoi.exitWg + ((n + 1 : Nat) : Int) := by
        push_cast; ring
      have e2 : s.loops + 1 + n = s.loops + (n + 1) := by ring
      rw [e1, e2]
    · simp only [wgAdd]; omega

theorem NewXiaoi_eq (p : XiaoiParameters) (hq : 0 ≤ p.Param_queue_size)
    (hc : 0 ≤ p.Param_connections) :
    NewXiaoi p = some ⟨xiaoiWith p [] 0, p.Param_connections.toNat, 0, false⟩ := by
  have hq1 : ¬ p.Param_queue_size < 0 := by omega
  have hc1 : ¬ p.Param_connections < 0 := by omega
  simp only [NewXiaoi, makeChan, hq1, hc1, if_false]
  rw [startWorkers_eq _ _ (by simp)]
  simp [xiaoiWith]

/-! ## `Post` -/

theorem Post_reject (x : Xiaoi) (u q : String)
    (h : (x.queue.len : Int) + THREAD_NUMBER > x.Param_queue_size) :
    Post x u q = some (x, 0, some GoError.ErrQueueFull) := by
  simp [Post, h]

theorem Post_accept (x : Xiaoi) (u q : String)
    (h : ¬ (x.queue.len : Int) + THREAD_NUMBER > x.Param_queue_size)
    (hroom : x.queue.buf.length < x.queue.cap) :
    Post x u q =
      some ({ x with id := wrapInt64 (x.id + 1),
                     queue := { x.queue with buf := x.queue.buf ++
                       [{ Id := wrapInt64 (x.id + 1), Userid := u, Question := q, Answer := "" }] } },
            wrapInt64 (x.id + 1), none) := by
  simp [Post, h, Chan.send, hroom]

theorem Post_blocked (x : Xiaoi) (u q : String)
    (h : ¬ (x.queue.len : Int) + THREAD_NUMBER > x.Param_queue_size)
    (hfull : ¬ x.queue.buf.length < x.queue.cap) :
    Post x u q = none := by
  simp [Post, h, Chan.send, hfull]

/-- The three outcomes of `Post`, by cases on the admission check and on the room left. -/
theorem Post_cases (x : Xiaoi) (u q : String) :
    ((x.queue.len : Int) + THREAD_NUMBER > x.Param_queue_size ∧
        Post x u q = some (x, 0, some GoError.ErrQueueFull)) ∨
    (¬ (x.queue.len : Int) + THREAD_NUMBER > x.Param_queue_size ∧
        x.queue.buf.length < x.queue.cap ∧
        Post x u q =
          some ({ x with id := wrapInt64 (x.id + 1),
                         queue := { x.queue with buf := x.queue.buf ++
                           [{ Id := wrapInt64 (x.id + 1), Userid := u, Question := q,
                              Answer := "" }] } },
                wrapInt64 (x.id + 1), none)) ∨
    (¬ (x.queue.len : Int) + THREAD_NUMBER > x.Param_queue_size ∧
        ¬ x.queue.buf.length < x.queue.cap ∧ Post x u q = none) := by
  by_cases h : (x.queue.len : Int) + THREAD_NUMBER > x.Param_queue_size
  · exact Or.inl ⟨h, Post_reject x u q h⟩
  · by_cases hroom : x.queue.buf.length < x.queue.cap
    · exact Or.inr (Or.inl ⟨h, hroom, Post_accept x u q h hroom⟩)
    · exact Or.inr (Or.inr ⟨h, hroom, Post_blocked x u q h hroom⟩)

/-- C1 (as amended): `Post` fails with the queue-full error exactly when the occupancy plus
the constant `THREAD_NUMBER = 8` exceeds `Param_queue_size`; `Param_connections` plays no
part in the admission check. -/
theorem Post_queue_full_iff (x : Xiaoi) (u q : String) :
    (∃ x1 id, Post x u q = some (x1, id, some GoError.ErrQueueFull)) ↔
      (x.queue.len : Int) + 8 > x.Param_queue_size := by
  rcases Post_cases x u q with ⟨h, e⟩ | ⟨h, _, e⟩ | ⟨h, _, e⟩
  · exact ⟨fun _ => h, fun _ => ⟨x, 0, e⟩⟩
  · constructor
    · rintro ⟨x1, id, e1⟩
      rw [e] at e1
      simp at e1
    · intro h1
      exact absurd h1 h
  · constructor
    · rintro ⟨x1, id, e1⟩
      rw [e] at e1
      simp at e1
    · intro h1
      exact absurd h1 h

/-- C1 (the claim as stated fails): a dispatcher freshly opened with 2 workers and capacity
7 has occupancy 0 and rejects a `Post` although 0 + 2 ≤ 7; one freshly opened with 10
workers and capacity 9 has occupancy 0 and accepts a `Post`, with id 1, although
0 + 10 > 9. -/
theorem Post_margin_is_not_worker_count :
    (NewXiaoi { testParameters with Param_connections := 2, Param_queue_size := 7 }).map
        (fun s => (s.xiaoi.queue.len, s.xiaoi.Param_connections, s.xiaoi.Param_queue_size,
          (Post s.xiaoi "Test1" "hello").map fun r => r.2))
      = some (0, 2, 7, some (0, some GoError.ErrQueueFull)) ∧
    ¬ ((0 : Int) + 2 > 7) ∧
    (NewXiaoi { testParameters with Param_connections := 10, Param_queue_size := 9 }).map
        (fun s => (s.xiaoi.queue.len, s.xiaoi.Param_connections, s.xiaoi.Param_queue_size,
          (Post s.xiaoi "Test1" "hello").map fun r => r.2))
      = some (0, 10, 9, some (1, none)) ∧
    (0 : Int) + 10 > 9 := by
  refine ⟨?_, by decide, ?_, by decide⟩
  · rw [NewXiaoi_eq _ (by decide) (by decide)]
    simp only [Option.map_some']
    rw [Post_reject _ _ _ (by decide)]
    rfl
  · rw [NewXiaoi_eq _ (by decide) (by decide)]
    simp only [Option.map_some']
    rw [Post_accept _ _ _ (by decide) (by decide)]
    rfl

/-- C3: a `Post` that returns an error returns the queue-full error with id 0 and returns
the dispatcher as it was: same queue contents in the same order, same identity counter. -/
theorem Post_error_leaves_state (x x1 : Xiaoi) (u q : String) (id : Int) (e : GoError)
    (h : Post x u q = some (x1, id, some e)) :
    e = GoError.ErrQueueFull ∧ id = 0 ∧ x1 = x ∧ x1.queue.buf = x.queue.buf ∧ x1.id = x.id := by
  rcases Post_cases x u q with ⟨_, e1⟩ | ⟨_, _, e1⟩ | ⟨_, _, e1⟩
  · rw [e1] at h
    simp only [Option.some.injEq, Prod.mk.injEq] at h
    obtain ⟨hx, hid, he⟩ := h
    subst hx
    exact ⟨by cases e; rfl, hid.symm, rfl, rfl, rfl⟩
  · rw [e1] at h; simp at h
  · rw [e1] at h; simp at h

theorem Post_error_leaves_state_witness :
    Post nearFull "Test1" "hello" = some (nearFull, 0, some GoError.ErrQueueFull) ∧
      (GoError.ErrQueueFull = GoError.ErrQueueFull ∧ (0 : Int) = 0 ∧ nearFull = nearFull ∧
        nearFull.queue.buf = nearFull.queue.buf ∧ nearFull.id = nearFull.id) :=
  ⟨Post_reject _ _ _ (by decide),
   Post_error_leaves_state nearFull nearFull "Test1" "hello" 0 GoError.ErrQueueFull
     (Post_reject _ _ _ (by decide))⟩

/-! ## `doRequest` -/

/-- C4 (the code at a failing input): with the random values 1, 2 and 2 ^ 63 - 1 the nonce
of `doRequest` has 48 characters, not `NONCE_SIZE` = 40: `%08x` pads to eight digits but
does not cut a 63-bit value down to eight. -/
theorem doRequest_nonce_48_chars :
    (doRequest (xiaoiWith testParameters [] 0) testMsg 1 2 (2 ^ 63 - 1)
        (Exchange.response 200 (BodyRead.ok "ok"))).nonce =
      "000000000000000100000000000000027fffffffffffffff" ∧
    (doRequest (xiaoiWith testParameters [] 0) testMsg 1 2 (2 ^ 63 - 1)
        (Exchange.response 200 (BodyRead.ok "ok"))).nonce.length = 48 ∧
    NONCE_SIZE = 40 := by
  refine ⟨?_, ?_, rfl⟩
  · show makeNonce 1 2 (2 ^ 63 - 1) = _
    decide
  · show (makeNonce 1 2 (2 ^ 63 - 1)).length = 48
    decide

/-- C5 (as amended): `doRequest` sets the Answer to the response body exactly when the
exchange returned the status `http.StatusOk` (200) with a readable body; for every other
outcome, the other 2xx statuses included, the Answer keeps the value it had, which is the
empty string for a message built by `Post`. -/
theorem doRequest_answer (x : Xiaoi) (msg : XiaoiMsg) (r1 r2 r3 : Nat) (ex : Exchange) :
    (∀ body, ex = Exchange.response StatusOk (BodyRead.ok body) →
        (doRequest x msg r1 r2 r3 ex).msg.Answer = body) ∧
    ((∀ body, ex ≠ Exchange.response StatusOk (BodyRead.ok body)) →
        (doRequest x msg r1 r2 r3 ex).msg = msg) ∧
    ((∀ body, ex ≠ Exchange.response StatusOk (BodyRead.ok body)) → msg.Answer = "" →
        (doRequest x msg r1 r2 r3 ex).msg.Answer = "") := by
  have key : (∀ body, ex ≠ Exchange.response StatusOk (BodyRead.ok body)) →
      (doRequest x msg r1 r2 r3 ex).msg = msg := by
    intro h
    cases ex with
    | transportError => rfl
    | response st rb =>
      by_cases hst : st = StatusOk
      · cases rb with
        | failed => simp [doRequest, doRequestBody, hst]
        | ok b => exact absurd (by rw [hst]) (h b)
      · simp [doRequest, doRequestBody, hst]
  refine ⟨?_, key, ?_⟩
  · intro body h
    subst h
    simp [doRequest, doRequestBody]
  · intro h hm
    rw [key h, hm]

theorem doRequest_answer_witness :
    (doRequest nearFull testMsg 1 2 3 (Exchange.response StatusOk (BodyRead.ok "ok"))).msg.Answer
        = "ok" ∧
      (doRequest nearFull testMsg 1 2 3 (Exchange.response 500 BodyRead.failed)).msg.Answer
        = "" :=
  ⟨(doRequest_answer nearFull testMsg 1 2 3 _).1 "ok" rfl,
   (doRequest_answer nearFull testMsg 1 2 3 (Exchange.response 500 BodyRead.failed)).2.2
     (by intro body h; injection h with _ h2; cases h2) rfl⟩

/-- C5 (the claim as stated fails): the exchange returns status 201, a 2xx status, with the
readable body "ok", and the Answer is left empty. -/
theorem doRequest_201_answer_empty :
    (200 ≤ (201 : Int) ∧ (201 : Int) < 300) ∧
    (doRequest nearFull testMsg 1 2 3 (Exchange.response 201 (BodyRead.ok "ok"))).msg.Answer
      = "" ∧
    (doRequest nearFull testMsg 1 2 3 (Exchange.response 201 (BodyRead.ok "ok"))).msg.Answer
      ≠ "ok" := by
  refine ⟨by decide, ?_, ?_⟩
  · rfl
  · show ("" : String) ≠ "ok"
    decide

/-- C6: for every outcome of the exchange, `doRequest` invokes the callback exactly once,
at its return, with the message it was given (same Id, Userid and Question) carrying the
final Answer; and a worker that takes a message from the queue invokes the callback exactly
once, for that message. -/
theorem doRequest_callback_once (x : Xiaoi) (msg : XiaoiMsg) (r1 r2 r3 : Nat) (ex : Exchange) :
    (doRequest x msg r1 r2 r3 ex).callbacks = [(doRequest x msg r1 r2 r3 ex).msg] ∧
    (doRequest x msg r1 r2 r3 ex).msg.Id = msg.Id ∧
    (doRequest x msg r1 r2 r3 ex).msg.Userid = msg.Userid ∧
    (doRequest x msg r1 r2 r3 ex).msg.Question = msg.Question ∧
    (∀ (t : Trace) (rest : List XiaoiMsg), t.xiaoi = x → x.queue.buf = msg :: rest →
      ∃ t1, t.step (Op.work r1 r2 r3 ex) = some t1 ∧
        t1.received = t.received ++ [msg] ∧
        t1.callbacks = t.callbacks ++ [(doRequest x msg r1 r2 r3 ex).msg] ∧
        t1.xiaoi.queue.buf = rest) := by
  have hcb : (doRequest x msg r1 r2 r3 ex).callbacks = [(doRequest x msg r1 r2 r3 ex).msg] := by
    simp [doRequest, doRequestBody]
  have hfields : (doRequest x msg r1 r2 r3 ex).msg.Id = msg.Id ∧
      (doRequest x msg r1 r2 r3 ex).msg.Userid = msg.Userid ∧
      (doRequest x msg r1 r2 r3 ex).msg.Question = msg.Question := by
    cases ex with
    | transportError => exact ⟨rfl, rfl, rfl⟩
    | response st rb =>
      by_cases hst : st = StatusOk
      · cases rb <;> simp [doRequest, doRequestBody, hst]
      · simp [doRequest, doRequestBody, hst]
  refine ⟨hcb, hfields.1, hfields.2.1, hfields.2.2, ?_⟩
  intro t rest ht hbuf
  subst ht
  have hstep : t.step (Op.work r1 r2 r3 ex) =
      some { t with xiaoi := { t.xiaoi with queue := { t.xiaoi.queue with buf := rest } },
                    received := t.received ++ [msg],
                    callbacks := t.callbacks ++ (doRequest t.xiaoi msg r1 r2 r3 ex).callbacks } := by
    simp only [Trace.step, loopRecv, Chan.recv, hbuf]
  exact ⟨_, hstep, rfl, by rw [hcb], rfl⟩

theorem doRequest_callback_once_witness :
    ∃ t1, (Trace.init nearFull).step (Op.work 1 2 3 Exchange.transportError) = some t1 ∧
      t1.received = [] ++ [⟨1, "Test1", "a", ""⟩] ∧
      t1.callbacks = [] ++
        [(doRequest nearFull ⟨1, "Test1", "a", ""⟩ 1 2 3 Exchange.transportError).msg] ∧
      t1.xiaoi.queue.buf = [⟨2, "Test2", "b", ""⟩, ⟨3, "Test3", "c", ""⟩] :=
  (doRequest_callback_once nearFull ⟨1, "Test1", "a", ""⟩ 1 2 3 Exchange.transportError).2.2.2.2
    (Trace.init nearFull) _ rfl rfl

/-! ## Shutdown -/

/-- C9 (the code at a failing input): a dispatcher opened with 2 workers is closed, both
workers leave on their signals (the counter is 0), then the timer of `Close` fires: its
first `Done` takes the counter to -1 and panics. -/
theorem exitWg_negative_when_timer_fires_late :
    (NewXiaoi { testParameters with Param_connections := 2, Param_queue_size := 10 }).map
        (fun s =>
          let s1 := s.run [LifeEvent.close 1, LifeEvent.workerExit, LifeEvent.workerExit]
          let s2 := s1.step LifeEvent.timerFire
          (s.xiaoi.exitWg, s1.xiaoi.exitWg, s1.loops, s1.panicked, s2.xiaoi.exitWg, s2.panicked))
      = some (2, 0, 0, false, -1, true) := by
  rw [NewXiaoi_eq _ (by decide) (by decide)]
  decide

/-! ## Sequential runs -/

theorem successIds_append (l : List PostCall) (c : PostCall) :
    successIds (l ++ [c]) = successIds l ++ (if c.err = none then [c.id] else []) := by
  induction l with
  | nil => by_cases h : c.err = none <;> simp [successIds, h]
  | cons d l ih => by_cases h : d.err = none <;> simp [successIds, h, ih]

theorem acceptedMsgs_append (l : List PostCall) (c : PostCall) :
    acceptedMsgs (l ++ [c]) = acceptedMsgs l ++
      (if c.err = none then
        [{ Id := c.id, Userid := c.userid, Question := c.question, Answer := "" }] else []) := by
  induction l with
  | nil => by_cases h : c.err = none <;> simp [acceptedMsgs, h]
  | cons d l ih => by_cases h : d.err = none <;> simp [acceptedMsgs, h, ih]

theorem idsUpTo_succ (n : Nat) : idsUpTo (n + 1) = idsUpTo n ++ [(n : Int) + 1] := by
  simp [idsUpTo, List.range_succ]

theorem wrapInt64_of_small (v : Int) (h0 : 0 ≤ v) (h1 : v < 2 ^ 63) : wrapInt64 v = v := by
  unfold wrapInt64
  omega

/-- One operation on a dispatcher that satisfies the invariants: it is carried out (`Post`
does not park), and the invariants hold afterwards. -/
theorem Trace.step_inv (p : XiaoiParameters) (t : Trace) (op : Op) (h : t.Inv p) :
    ∃ t1, t.step op = some t1 ∧ t1.Inv p ∧ t1.posts.length ≤ t.posts.length + 1 ∧
      (t.IdInv → t.posts.length + 1 < 2 ^ 63 → t1.IdInv) := by
  obtain ⟨hp, hcap, h1, h2, hfifo, hocc⟩ := h
  have hsize : t.xiaoi.Param_queue_size = p.Param_queue_size := by rw [← hp]
  cases op with
  | post u q =>
    rcases Post_cases t.xiaoi u q with ⟨_, e⟩ | ⟨hchk, _, e⟩ | ⟨hchk, hfull, _⟩
    · have hstep : t.step (Op.post u q) =
          some { t with posts := t.posts ++ [⟨u, q, 0, some GoError.ErrQueueFull⟩] } := by
        simp only [Trace.step, e]
      refine ⟨_, hstep, ⟨hp, hcap, h1, h2, ?_, hocc⟩, by simp, ?_⟩
      · simp [acceptedMsgs_append, hfifo]
      · rintro ⟨i1, i2, i3⟩ _
        have hs : successIds (t.posts ++ [⟨u, q, 0, some GoError.ErrQueueFull⟩]) =
            successIds t.posts := by simp [successIds_append]
        refine ⟨?_, ?_, ?_⟩
        · show t.xiaoi.id = _
          rw [hs]; exact i1
        · show successIds (t.posts ++ _) = _
          rw [hs]; exact i2
        · show (successIds (t.posts ++ _)).length ≤ (t.posts ++ _).length
          rw [hs, List.length_append]; omega
    · have hstep : t.step (Op.post u q) =
          some { t with
            xiaoi := { t.xiaoi with
              id := wrapInt64 (t.xiaoi.id + 1),
              queue := { t.xiaoi.queue with buf := t.xiaoi.queue.buf ++
                [{ Id := wrapInt64 (t.xiaoi.id + 1), Userid := u, Question := q, Answer := "" }] } },
            posts := t.posts ++ [⟨u, q, wrapInt64 (t.xiaoi.id + 1), none⟩] } := by
        simp only [Trace.step, e]
      refine ⟨_, hstep, ⟨hp, hcap, h1, h2, ?_, ?_⟩, by simp, ?_⟩
      · simp [acceptedMsgs_append, ← hfifo]
      · simp only [Chan.len, THREAD_NUMBER, hsize] at hchk ⊢
        simp only [List.length_append, List.length_singleton]
        push_cast
        have := le_max_right (0 : Int) (p.Param_queue_size - 7)
        omega
      · rintro ⟨i1, i2, i3⟩ hlen
        have hw : wrapInt64 (t.xiaoi.id + 1) = ((successIds t.posts).length : Int) + 1 := by
          rw [i1]
          apply wrapInt64_of_small
          · omega
          · have h3 : (successIds t.posts).length + 1 < 2 ^ 63 := by omega
            exact_mod_cast h3
        have hs : successIds (t.posts ++ [⟨u, q, wrapInt64 (t.xiaoi.id + 1), none⟩]) =
            successIds t.posts ++ [((successIds t.posts).length : Int) + 1] := by
          simp [successIds_append, hw]
        refine ⟨?_, ?_, ?_⟩
        · show wrapInt64 (t.xiaoi.id + 1) = _
          rw [hs, hw]; simp
        · show successIds (t.posts ++ _) = _
          rw [hs, List.length_append, List.length_singleton, idsUpTo_succ, ← i2]
        · show (successIds (t.posts ++ _)).length ≤ (t.posts ++ _).length
          rw [hs]; simp only [List.length_append, List.length_singleton]; omega
    · exfalso
      apply hfull
      simp only [Chan.len, THREAD_NUMBER, hsize] at hchk
      omega
  | work r1 r2 r3 ex =>
    cases hb : t.xiaoi.queue.buf with
    | nil =>
      have hstep : t.step (Op.work r1 r2 r3 ex) = some t := by
        simp only [Trace.step, loopRecv, Chan.recv, hb]
      exact ⟨t, hstep, ⟨hp, hcap, h1, h2, hfifo, hocc⟩, by omega, fun hi _ => hi⟩
    | cons m rest =>
      have hstep : t.step (Op.work r1 r2 r3 ex) =
          some { t with
            xiaoi := { t.xiaoi with queue := { t.xiaoi.queue with buf := rest } },
            received := t.received ++ [m],
            callbacks := t.callbacks ++ (doRequest t.xiaoi m r1 r2 r3 ex).callbacks } := by
        simp only [Trace.step, loopRecv, Chan.recv, hb]
      refine ⟨_, hstep, ⟨hp, hcap, h1, h2, ?_, ?_⟩, by simp, fun hi _ => hi⟩
      · simp [← hfifo, hb]
      · simp only [Chan.len, hb, List.length_cons] at hocc ⊢
        push_cast at hocc
        omega

/-- A sequence of operations on a dispatcher that satisfies the invariants: the run
completes and the invariants hold at its end. -/
theorem Trace.run_inv (p : XiaoiParameters) (ops : List Op) (t : Trace) (h : t.Inv p) :
    ∃ t1, t.run ops = some t1 ∧ t1.Inv p ∧ t1.posts.length ≤ t.posts.length + ops.length ∧
      (t.IdInv → t.posts.length + ops.length < 2 ^ 63 → t1.IdInv) := by
  induction ops generalizing t with
  | nil => exact ⟨t, rfl, h, by simp, fun hi _ => hi⟩
  | cons op ops ih =>
    obtain ⟨t1, e1, hinv1, hlen1, hid1⟩ := Trace.step_inv p t op h
    obtain ⟨t2, e2, hinv2, hlen2, hid2⟩ := ih t1 hinv1
    refine ⟨t2, by simp only [Trace.run, e1, e2], hinv2, ?_, ?_⟩
    · simp only [List.length_cons]; omega
    · intro hi hlen
      simp only [List.length_cons] at hlen
      exact hid2 (hid1 hi (by omega)) (by omega)

theorem Trace.init_inv (p : XiaoiParameters) (hq : 0 ≤ p.Param_queue_size) :
    (Trace.init (xiaoiWith p [] 0)).Inv p ∧ (Trace.init (xiaoiWith p [] 0)).IdInv := by
  refine ⟨⟨rfl, ?_, rfl, rfl, rfl, ?_⟩, ⟨rfl, rfl, ?_⟩⟩
  · simp [Trace.init, xiaoiWith, Int.toNat_of_nonneg hq]
  · simp [Trace.init, xiaoiWith, Chan.len]
  · simp [Trace.init, successIds]

/-- C2: on a dispatcher opened by `NewXiaoi`, any sequence of fewer than 2 ^ 63 operations
(calls of `Post`, rejected or not, and workers taking messages) runs to its end, and the ids
returned by the successful calls of `Post` are, in call order, 1, 2, ..., m, where m is the
number of successful calls. -/
theorem successful_ids_count_from_one (p : XiaoiParameters) (ops : List Op)
    (hq : 0 ≤ p.Param_queue_size) (hc : 0 ≤ p.Param_connections)
    (hlen : ops.length < 2 ^ 63) :
    ∃ s t, NewXiaoi p = some s ∧ (Trace.init s.xiaoi).run ops = some t ∧
      successIds t.posts = idsUpTo (successIds t.posts).length := by
  obtain ⟨hinv, hid⟩ := Trace.init_inv p hq
  obtain ⟨t, e, _, _, hid1⟩ := Trace.run_inv p ops _ hinv
  refine ⟨_, t, NewXiaoi_eq p hq hc, e, ?_⟩
  exact (hid1 hid (by simpa [Trace.init] using hlen)).2.1

theorem successful_ids_count_from_one_witness :
    ∃ s t, NewXiaoi { testParameters with Param_connections := 2, Param_queue_size := 10 }
        = some s ∧
      (Trace.init s.xiaoi).run
        [Op.post "Test1" "a", Op.post "Test2" "b", Op.post "Test3" "c", Op.post "Test4" "d",
         Op.work 1 2 3 (Exchange.response 200 (BodyRead.ok "ok")), Op.post "Test5" "e"]
        = some t ∧
      successIds t.posts = idsUpTo (successIds t.posts).length :=
  successful_ids_count_from_one _ _ (by decide) (by decide) (by decide)

/-- C8: a successful `Post` with id i for (userid, question) leaves the queue as it was with
the one message (i, userid, question, empty Answer) added at the tail; and on a dispatcher
opened by `NewXiaoi`, after any sequence of operations, the messages the workers received
followed by the messages still queued are the messages of the successful calls of `Post`,
in call order. -/
theorem Post_appends_and_queue_is_fifo :
    (∀ (x x1 : Xiaoi) (u q : String) (i : Int), Post x u q = some (x1, i, none) →
      x1.queue.buf = x.queue.buf ++ [{ Id := i, Userid := u, Question := q, Answer := "" }]) ∧
    (∀ (p : XiaoiParameters) (ops : List Op), 0 ≤ p.Param_queue_size →
      0 ≤ p.Param_connections →
      ∃ s t, NewXiaoi p = some s ∧ (Trace.init s.xiaoi).run ops = some t ∧
        t.received ++ t.xiaoi.queue.buf = acceptedMsgs t.posts) := by
  constructor
  · intro x x1 u q i h
    rcases Post_cases x u q with ⟨_, e⟩ | ⟨_, _, e⟩ | ⟨_, _, e⟩
    · rw [e] at h; simp at h
    · rw [e] at h
      simp only [Option.some.injEq, Prod.mk.injEq] at h
      obtain ⟨hx, hi, _⟩ := h
      subst hx hi
      rfl
    · rw [e] at h; simp at h
  · intro p ops hq hc
    obtain ⟨hinv, _⟩ := Trace.init_inv p hq
    obtain ⟨t, e, hinv1, _, _⟩ := Trace.run_inv p ops _ hinv
    exact ⟨_, t, NewXiaoi_eq p hq hc, e, hinv1.2.2.2.2.1⟩

theorem Post_appends_and_queue_is_fifo_witness :
    (xiaoiWith testParameters [testMsg] 1).queue.buf =
        (xiaoiWith testParameters [] 0).queue.buf ++
          [{ Id := 1, Userid := "Test1", Question := "hello", Answer := "" }] ∧
    (∃ s t, NewXiaoi testParameters = some s ∧
      (Trace.init s.xiaoi).run [Op.post "Test1" "我爱你", Op.work 1 2 3 Exchange.transportError]
        = some t ∧
      t.received ++ t.xiaoi.queue.buf = acceptedMsgs t.posts) :=
  ⟨Post_appends_and_queue_is_fifo.1 (xiaoiWith testParameters [] 0)
      (xiaoiWith testParameters [testMsg] 1) "Test1" "hello" 1
      ((Post_accept _ _ _ (by decide) (by decide)).trans rfl),
   Post_appends_and_queue_is_fifo.2 testParameters _ (by decide) (by decide)⟩

/-- C10: in every dispatcher state where the admission check of `Post` passes the occupancy
is at most `Param_queue_size - 8`; and on a dispatcher opened by `NewXiaoi`, after any
sequence of operations: when the check passes, the queue has a free slot and `Post` returns
with success (its send does not park); the occupancy is at most
`max 0 (Param_queue_size - 7)`; and with `Param_queue_size < 8` every `Post` is rejected,
also on the empty queue of the fresh dispatcher. -/
theorem admission_check_leaves_room (p : XiaoiParameters) (ops : List Op)
    (hq : 0 ≤ p.Param_queue_size) (hc : 0 ≤ p.Param_connections) :
    (∀ x : Xiaoi, ¬ (x.queue.len : Int) + THREAD_NUMBER > x.Param_queue_size →
      (x.queue.len : Int) ≤ x.Param_queue_size - 8) ∧
    ∃ s t, NewXiaoi p = some s ∧ (Trace.init s.xiaoi).run ops = some t ∧
      (¬ (t.xiaoi.queue.len : Int) + THREAD_NUMBER > t.xiaoi.Param_queue_size →
        (t.xiaoi.queue.len : Int) ≤ p.Param_queue_size - 8 ∧
        t.xiaoi.queue.len < t.xiaoi.queue.cap ∧
        ∀ u q, ∃ x1 i, Post t.xiaoi u q = some (x1, i, none)) ∧
      (t.xiaoi.queue.len : Int) ≤ max 0 (p.Param_queue_size - 7) ∧
      (p.Param_queue_size < 8 →
        (∀ u q, Post t.xiaoi u q = some (t.xiaoi, 0, some GoError.ErrQueueFull)) ∧
        ∀ u q, Post s.xiaoi u q = some (s.xiaoi, 0, some GoError.ErrQueueFull)) := by
  obtain ⟨hinv, _⟩ := Trace.init_inv p hq
  obtain ⟨t, e, ⟨hp, hcap, _, _, _, hocc⟩, _, _⟩ := Trace.run_inv p ops _ hinv
  have hsize : t.xiaoi.Param_queue_size = p.Param_queue_size := by rw [← hp]
  refine ⟨fun x hx => by simp only [THREAD_NUMBER] at hx; omega,
    _, t, NewXiaoi_eq p hq hc, e, ?_, hocc, ?_⟩
  · intro hchk
    have hroom : t.xiaoi.queue.buf.length < t.xiaoi.queue.cap := by
      simp only [Chan.len, THREAD_NUMBER, hsize] at hchk
      omega
    refine ⟨?_, hroom, fun u q => ⟨_, _, Post_accept _ u q hchk hroom⟩⟩
    simp only [Chan.len, THREAD_NUMBER, hsize] at hchk ⊢
    omega
  · intro hsmall
    constructor
    · intro u q
      apply Post_reject
      simp only [Chan.len, THREAD_NUMBER, hsize]
      omega
    · intro u q
      apply Post_reject
      simp only [Chan.len, THREAD_NUMBER, xiaoiWith]
      show ((([] : List XiaoiMsg).length : Nat) : Int) + 8 > p.Param_queue_size
      simp only [List.length_nil]
      omega

theorem admission_check_leaves_room_witness :
    (∀ x : Xiaoi, ¬ (x.queue.len : Int) + THREAD_NUMBER > x.Param_queue_size →
      (x.queue.len : Int) ≤ x.Param_queue_size - 8) ∧
    ∃ s t, NewXiaoi { testParameters with Param_queue_size := 10 } = some s ∧
      (Trace.init s.xiaoi).run [Op.post "Test1" "a", Op.post "Test2" "b"] = some t ∧
      (¬ (t.xiaoi.queue.len : Int) + THREAD_NUMBER > t.xiaoi.Param_queue_size →
        (t.xiaoi.queue.len : Int) ≤ (10 : Int) - 8 ∧
        t.xiaoi.queue.len < t.xiaoi.queue.cap ∧
        ∀ u q, ∃ x1 i, Post t.xiaoi u q = some (x1, i, none)) ∧
      (t.xiaoi.queue.len : Int) ≤ max 0 ((10 : Int) - 7) ∧
      ((10 : Int) < 8 →
        (∀ u q, Post t.xiaoi u q = some (t.xiaoi, 0, some GoError.ErrQueueFull)) ∧
        ∀ u q, Post s.xiaoi u q = some (s.xiaoi, 0, some GoError.ErrQueueFull)) :=
  admission_check_leaves_room { testParameters with Param_queue_size := 10 } _
    (by decide) (by decide)

/-! ## The signature -/

theorem beBytes_length (k v : Nat) : (beBytes k v).length = k := by
  induction k with
  | zero => rfl
  | succ k ih => simp [beBytes, ih]

theorem sha1_length (msg : List Nat) : (sha1 msg).length = 20 := by
  simp [sha1, beBytes_length]

theorem hexChars_length (bs : List Nat) : (hexChars bs).length = 2 * bs.length := by
  induction bs with
  | nil => rfl
  | cons b bs ih => simp [hexChars, hexByte, ih]; omega

theorem hexDigit_isLowerHex (n : Nat) : isLowerHex (hexDigit (n % 16)) = true := by
  have h : n % 16 < 16 := Nat.mod_lt _ (by decide)
  have key : ∀ k, k < 16 → isLowerHex (hexDigit k) = true := by decide
  exact key _ h

theorem hexChars_all (bs : List Nat) : (hexChars bs).all isLowerHex = true := by
  induction bs with
  | nil => rfl
  | cons b bs ih =>
    simp only [hexChars, hexByte, List.all_append, List.all_cons, List.all_nil, Bool.and_true,
      hexDigit_isLowerHex, ih, Bool.and_self]

theorem bytesOfChars_append (a b : List Char) :
    bytesOfChars (a ++ b) = bytesOfChars a ++ bytesOfChars b := by
  induction a with
  | nil => rfl
  | cons c a ih => simp [bytesOfChars, ih]

theorem bytesOf_append (a b : String) : bytesOf (a ++ b) = bytesOf a ++ bytesOf b := by
  simp [bytesOf, bytesOfChars_append]

theorem deriveHA1_eq (key secret : String) :
    deriveHA1 key secret = hexOfBytes (sha1 (bytesOf (key ++ ":xiaoi.com:" ++ secret))) := by
  have h : bytesOf ":xiaoi.com:" = SPLIT_BYTES ++ bytesOf REALM ++ SPLIT_BYTES := by decide
  simp only [deriveHA1, bytesOf_append, h, List.append_assoc]

theorem deriveHA2_eq : deriveHA2 = hexOfBytes (sha1 (bytesOf "POST:/ask.do")) := by
  have h : bytesOf METHOD ++ SPLIT_BYTES ++ bytesOf URI = bytesOf "POST:/ask.do" := by decide
  simp only [deriveHA2, h]

theorem signOf_eq (ha1 nonce ha2 : String) :
    signOf ha1 nonce ha2 = hexOfBytes (sha1 (bytesOf (ha1 ++ ":" ++ nonce ++ ":" ++ ha2))) := by
  have h : bytesOf ":" = SPLIT_BYTES := rfl
  simp only [signOf, bytesOf_append, h, List.append_assoc]

/-- C7: on a dispatcher opened by `NewXiaoi`, after any sequence of operations, the X-Auth
header that `doRequest` sends is app_key="key",nonce="nonce",signature="sig", where sig is
the lowercase hex SHA-1 of HA1:nonce:HA2 with HA1 the hex SHA-1 of key:xiaoi.com:secret and
HA2 the hex SHA-1 of POST:/ask.do; sig has 40 characters, all of them lowercase hexadecimal
digits, and is a function of key, secret and nonce. -/
theorem authHeader_is_documented_signature (p : XiaoiParameters) (ops : List Op)
    (msg : XiaoiMsg) (r1 r2 r3 : Nat) (ex : Exchange)
    (hq : 0 ≤ p.Param_queue_size) (hc : 0 ≤ p.Param_connections) :
    ∃ s t, NewXiaoi p = some s ∧ (Trace.init s.xiaoi).run ops = some t ∧
      (doRequest t.xiaoi msg r1 r2 r3 ex).req.header =
        [("X-Auth", (doRequest t.xiaoi msg r1 r2 r3 ex).authHeader),
         ("Content-Type", "application/x-www-form-urlencoded; charset=UTF-8")] ∧
      (doRequest t.xiaoi msg r1 r2 r3 ex).authHeader =
        "app_key=\"" ++ p.Param_key ++ "\",nonce=\"" ++
          (doRequest t.xiaoi msg r1 r2 r3 ex).nonce ++ "\",signature=\"" ++
          documentedSignature p.Param_key p.Param_secret
            (doRequest t.xiaoi msg r1 r2 r3 ex).nonce ++ "\"" ∧
      (doRequest t.xiaoi msg r1 r2 r3 ex).nonce = makeNonce r1 r2 r3 ∧
      (documentedSignature p.Param_key p.Param_secret
        (doRequest t.xiaoi msg r1 r2 r3 ex).nonce).length = 40 ∧
      (documentedSignature p.Param_key p.Param_secret
        (doRequest t.xiaoi msg r1 r2 r3 ex).nonce).data.all isLowerHex = true := by
  obtain ⟨hinv, _⟩ := Trace.init_inv p hq
  obtain ⟨t, e, ⟨hp, _, h1, h2, _, _⟩, _, _⟩ := Trace.run_inv p ops _ hinv
  have hkey : t.xiaoi.Param_key = p.Param_key := by rw [← hp]
  have hsig : signOf t.xiaoi.ha1 (makeNonce r1 r2 r3) t.xiaoi.ha2 =
      documentedSignature p.Param_key p.Param_secret (makeNonce r1 r2 r3) := by
    rw [h1, h2, signOf_eq, deriveHA1_eq, deriveHA2_eq]
    rfl
  refine ⟨_, t, NewXiaoi_eq p hq hc, e, rfl, ?_, rfl, ?_, ?_⟩
  · show "app_key=\"" ++ t.xiaoi.Param_key ++ "\",nonce=\"" ++ makeNonce r1 r2 r3 ++
        "\",signature=\"" ++ signOf t.xiaoi.ha1 (makeNonce r1 r2 r3) t.xiaoi.ha2 ++ "\"" = _
    rw [hkey, hsig]
    rfl
  · show (hexOfBytes _).length = 40
    simp [hexOfBytes, String.length, hexChars_length, sha1_length]
  · show (hexOfBytes _).data.all isLowerHex = true
    exact hexChars_all _

theorem authHeader_is_documented_signature_witness :
    ∃ s t, NewXiaoi testParameters = some s ∧
      (Trace.init s.xiaoi).run [Op.post "Test1" "我爱你"] = some t ∧
      (doRequest t.xiaoi testMsg 1 2 3 Exchange.transportError).req.header =
        [("X-Auth", (doRequest t.xiaoi testMsg 1 2 3 Exchange.transportError).authHeader),
         ("Content-Type", "application/x-www-form-urlencoded; charset=UTF-8")] ∧
      (doRequest t.xiaoi testMsg 1 2 3 Exchange.transportError).authHeader =
        "app_key=\"" ++ testParameters.Param_key ++ "\",nonce=\"" ++
          (doRequest t.xiaoi testMsg 1 2 3 Exchange.transportError).nonce ++ "\",signature=\"" ++
          documentedSignature testParameters.Param_key testParameters.Param_secret
            (doRequest t.xiaoi testMsg 1 2 3 Exchange.transportError).nonce ++ "\"" ∧
      (doRequest t.xiaoi testMsg 1 2 3 Exchange.transportError).nonce = makeNonce 1 2 3 ∧
      (documentedSignature testParameters.Param_key testParameters.Param_secret
        (doRequest t.xiaoi testMsg 1 2 3 Exchange.transportError).nonce).length = 40 ∧
      (documentedSignature testParameters.Param_key testParameters.Param_secret
        (doRequest t.xiaoi testMsg 1 2 3 Exchange.transportError).nonce).data.all isLowerHex
        = true :=
  authHeader_is_documented_signature testParameters _ testMsg 1 2 3 Exchange.transportError
    (by decide) (by decide)

/-! ## The length of the nonce -/

theorem toDigitsCore_length_ge (f n : Nat) (ds : List Char) :
    ds.length ≤ (Nat.toDigitsCore 16 f n ds).length := by
  induction f generalizing n ds with
  | zero => simp [Nat.toDigitsCore]
  | succ f ih =>
    simp only [Nat.toDigitsCore]
    split
    · simp
    · exact le_trans (by simp) (ih _ _)

theorem toDigitsCore_length_gt (k : Nat) :
    ∀ (f n : Nat) (ds : List Char), 16 ^ k ≤ n → k + 1 ≤ f →
      ds.length + k + 1 ≤ (Nat.toDigitsCore 16 f n ds).length := by
  induction k with
  | zero =>
    intro f n ds _ hf
    obtain ⟨f1, rfl⟩ : ∃ f1, f = f1 + 1 := ⟨f - 1, by omega⟩
    simp only [Nat.toDigitsCore]
    split
    · simp
    · exact le_trans (by simp) (toDigitsCore_length_ge _ _ _)
  | succ k ih =>
    intro f n ds hn hf
    obtain ⟨f1, rfl⟩ : ∃ f1, f = f1 + 1 := ⟨f - 1, by omega⟩
    have hdiv : 16 ^ k ≤ n / 16 := by
      rw [Nat.le_div_iff_mul_le (by decide)]
      rw [pow_succ] at hn
      exact hn
    have hne : n / 16 ≠ 0 := by
      have : 0 < 16 ^ k := Nat.pow_pos (by decide)
      omega
    simp only [Nat.toDigitsCore, hne, if_false]
    have := ih f1 (n / 16) (Nat.digitChar (n % 16) :: ds) hdiv (by omega)
    simp only [List.length_cons] at this
    omega

theorem fmtHexPad_length_ge (width v : Nat) : width ≤ (fmtHexPad width v).length := by
  simp only [fmtHexPad, String.length, List.length_append, List.length_replicate]
  omega

theorem fmtHexPad_8_length_gt (v : Nat) (h : 2 ^ 32 ≤ v) : 9 ≤ (fmtHexPad 8 v).length := by
  have h1 := toDigitsCore_length_gt 8 (v + 1) v [] (by simpa using h) (by omega)
  simp only [fmtHexPad, String.length, List.length_append, List.length_replicate, Nat.toDigits]
  simp only [List.length_nil] at h1
  omega

/-- C4 (what the code does): whenever the third random value is 2 ^ 32 or more, which a
63-bit value is but for one case in 2 ^ 31, the nonce of `doRequest` has more than
`NONCE_SIZE` = 40 characters. -/
theorem doRequest_nonce_longer_than_40 (x : Xiaoi) (msg : XiaoiMsg) (r1 r2 r3 : Nat)
    (ex : Exchange) (h : 2 ^ 32 ≤ r3) :
    NONCE_SIZE < (doRequest x msg r1 r2 r3 ex).nonce.length := by
  show 40 < (makeNonce r1 r2 r3).length
  have h1 := fmtHexPad_length_ge 16 r1
  have h2 := fmtHexPad_length_ge 16 r2
  have h3 := fmtHexPad_8_length_gt r3 h
  simp only [makeNonce, String.length_append]
  omega

theorem doRequest_nonce_longer_than_40_witness :
    2 ^ 32 ≤ 2 ^ 63 - 1 ∧
      NONCE_SIZE < (doRequest (xiaoiWith testParameters [] 0) testMsg 1 2 (2 ^ 63 - 1)
        (Exchange.response 200 (BodyRead.ok "ok"))).nonce.length :=
  ⟨by decide, doRequest_nonce_longer_than_40 _ _ 1 2 (2 ^ 63 - 1) _ (by decide)⟩

/-! ## Shutdown: the timer after a clean exit -/

theorem sendExits_room (n : Nat) (c : Chan Bool) (h : c.buf.length + n ≤ c.cap) :
    sendExits n c = ({ c with buf := c.buf ++ List.replicate n true }, true) := by
  induction n generalizing c with
  | zero => simp [sendExits]
  | succ n ih =>
    have hlt : c.buf.length < c.cap := by omega
    simp only [sendExits, Chan.send, hlt, if_true]
    rw [ih]
    · simp [List.replicate_succ]
    · simp only [List.length_append, List.length_singleton]; omega

theorem run_workerExits (k : Nat) (s : System) (hp : s.panicked = false) (hl : s.loops = k)
    (hb : s.xiaoi.exitSg.buf = List.replicate k true) (hw : s.xiaoi.exitWg = k) :
    (s.run (List.replicate k LifeEvent.workerExit)).xiaoi.exitWg = 0 ∧
    (s.run (List.replicate k LifeEvent.workerExit)).loops = 0 ∧
    (s.run (List.replicate k LifeEvent.workerExit)).panicked = false ∧
    (s.run (List.replicate k LifeEvent.workerExit)).timers = s.timers ∧
    (s.run (List.replicate k LifeEvent.workerExit)).xiaoi.Param_connections =
      s.xiaoi.Param_connections := by
  induction k generalizing s with
  | zero => exact ⟨by simpa using hw, by simpa using hl, hp, rfl, rfl⟩
  | succ k ih =>
    have hneg : ¬ (((k + 1 : Nat) : Int) + -1 < 0) := by push_cast; omega
    have hstep : s.step LifeEvent.workerExit =
        { s with xiaoi := { s.xiaoi with
                              exitSg := ⟨List.replicate k true, s.xiaoi.exitSg.cap⟩,
                              exitWg := (k : Int) },
                 loops := k, panicked := false } := by
      simp only [System.step, hp, hl, loopExit, Chan.recv, hb, List.replicate_succ, wgAdd, hw,
        hneg, decide_False]
      simp
    simp only [List.replicate_succ, System.run, hstep]
    exact ih _ rfl rfl rfl rfl

theorem doneTimes_zero (n : Nat) : doneTimes (n + 1) 0 = (-1, true) := by
  simp [doneTimes, wgAdd]

/-- C9 (the code on the path the claim names): a dispatcher opened with one worker or more is
closed and every worker leaves on its signal, which takes the counter of the wait group to
0 without a panic; when the timer of `Close` then fires, its first `Done` takes the counter
to -1 and panics. -/
theorem exitWg_negative_after_clean_exit (p : XiaoiParameters) (timeout : Int)
    (hq : 0 ≤ p.Param_queue_size) (hc : 1 ≤ p.Param_connections) :
    ∃ s, NewXiaoi p = some s ∧
      (s.run (LifeEvent.close timeout ::
        List.replicate p.Param_connections.toNat LifeEvent.workerExit)).xiaoi.exitWg = 0 ∧
      (s.run (LifeEvent.close timeout ::
        List.replicate p.Param_connections.toNat LifeEvent.workerExit)).panicked = false ∧
      ((s.run (LifeEvent.close timeout ::
        List.replicate p.Param_connections.toNat LifeEvent.workerExit)).step
          LifeEvent.timerFire).xiaoi.exitWg = -1 ∧
      ((s.run (LifeEvent.close timeout ::
        List.replicate p.Param_connections.toNat LifeEvent.workerExit)).step
          LifeEvent.timerFire).panicked = true := by
  refine ⟨_, NewXiaoi_eq p hq (by omega), ?_⟩
  obtain ⟨w, hw⟩ : ∃ w, p.Param_connections.toNat = w + 1 :=
    ⟨p.Param_connections.toNat - 1, by omega⟩
  have hclose : (System.mk (xiaoiWith p [] 0) p.Param_connections.toNat 0 false).step
      (LifeEvent.close timeout) =
      { xiaoi := { xiaoiWith p [] 0 with
          exitSg := ⟨List.replicate p.Param_connections.toNat true, p.Param_connections.toNat⟩ },
        loops := p.Param_connections.toNat, timers := 1, panicked := false } := by
    simp only [System.step, Close]
    rw [show (xiaoiWith p [] 0).exitSg = ⟨[], p.Param_connections.toNat⟩ from rfl,
      show (xiaoiWith p [] 0).Param_connections = p.Param_connections from rfl,
      sendExits_room _ _ (by simp)]
    simp
  simp only [System.run, hclose]
  obtain ⟨h1, h2, h3, h4, h5⟩ := run_workerExits p.Param_connections.toNat
    { xiaoi := { xiaoiWith p [] 0 with
        exitSg := ⟨List.replicate p.Param_connections.toNat true, p.Param_connections.toNat⟩ },
      loops := p.Param_connections.toNat, timers := 1, panicked := false } rfl rfl rfl rfl
  have h5' : (System.run
      { xiaoi := { xiaoiWith p [] 0 with
          exitSg := ⟨List.replicate p.Param_connections.toNat true, p.Param_connections.toNat⟩ },
        loops := p.Param_connections.toNat, timers := 1, panicked := false }
      (List.replicate p.Param_connections.toNat LifeEvent.workerExit)).xiaoi.Param_connections.toNat
        = w + 1 := by
    rw [h5]; exact hw
  refine ⟨h1, h3, ?_, ?_⟩
  · simp only [System.step, h3, h4, timerFire, h1, h5', doneTimes_zero]
    simp
  · simp only [System.step, h3, h4, timerFire, h1, h5', doneTimes_zero]
    simp

theorem exitWg_negative_after_clean_exit_witness :
    ∃ s, NewXiaoi testParameters = some s ∧
      (s.run (LifeEvent.close 1 ::
        List.replicate testParameters.Param_connections.toNat LifeEvent.workerExit)).xiaoi.exitWg
          = 0 ∧
      (s.run (LifeEvent.close 1 ::
        List.replicate testParameters.Param_connections.toNat LifeEvent.workerExit)).panicked
          = false ∧
      ((s.run (LifeEvent.close 1 ::
        List.replicate testParameters.Param_connections.toNat LifeEvent.workerExit)).step
          LifeEvent.timerFire).xiaoi.exitWg = -1 ∧
      ((s.run (LifeEvent.close 1 ::
        List.replicate testParameters.Param_connections.toNat LifeEvent.workerExit)).step
          LifeEvent.timerFire).panicked = true :=
  exitWg_negative_after_clean_exit testParameters 1 (by decide) (by decide)

end XiaoiGo
